import Mathlib

/-!
Verification of the trap/syscall dispatch core of the maestro kernel
against its specification.

Shallow embedding of:
  * `src/util/lock.c`              — the interrupt-masking spinlock;
  * `kernel/arch/x86/src/context.s` — the per-vector trap entry stubs;
  * `src/syscall/handler.c`        — the syscall dispatcher;
  * `src/test_process.c`           — the user-side `print_nbr` routine.
-/

/-! ## Interrupt flag and the spinlock (`src/util/lock.c`)

The interrupt-enable state of the single core is a `Bool`
(`true` = interrupts enabled).  `CLI`/`STI` are the x86 instructions
used by the lock primitive. -/

/-- The `CLI` instruction: masks interrupts on the current core. -/
def CLI (_s : Bool) : Bool := false

/-- The `STI` instruction: unmasks interrupts on the current core. -/
def STI (_s : Bool) : Bool := true

/-- `void lock(spinlock_t *spinlock)`: executes `CLI()` and ignores its
argument (the spin loop is a `TODO` in the source). -/
def lock (s : Bool) : Bool := CLI s

/-- `void unlock(spinlock_t *spinlock)`: executes `STI()` and ignores its
argument. -/
def unlock (s : Bool) : Bool := STI s

/-! ## Trap entry stubs (`kernel/arch/x86/src/context.s`)

The file instantiates three macros — `ERROR id`, `ERROR_CODE id`,
`IRQ id` — and defines one hand-written `syscall` stub.  Each stub
normalizes the trap into a uniform frame: `ERROR` pushes a placeholder
error code 0 then the vector `id`; `ERROR_CODE` pushes only `id`
(the hardware already pushed a genuine error code); `IRQ` pushes a
placeholder 0 then the vector `0x20 + id`; `syscall` pushes a
placeholder 0 for the code and 0 for the vector (both commented
`(absent)` in the source). -/

/-- One trap entry stub of `context.s`, identified by the macro that
produced it (or the hand-written `syscall` stub). -/
inductive Stub where
  | error (id : Nat)
  | errorCode (id : Nat)
  | irq (id : Nat)
  | syscall
deriving DecidableEq, Repr

/-- The vector number the stub records in the frame: `ERROR`/`ERROR_CODE`
push their `id`, `IRQ` pushes `0x20 + id`, the `syscall` stub pushes `0`
(commented `# interrupt ID (absent)`). -/
def stubVector : Stub → Nat
  | .error id => id
  | .errorCode id => id
  | .irq id => 32 + id
  | .syscall => 0

/-- Whether the stub pushes a synthesized placeholder error code
(`push 0 # code (absent)`); only `ERROR_CODE` stubs do not, relying on
the code the hardware pushed. -/
def pushesPlaceholderCode : Stub → Bool
  | .errorCode _ => false
  | _ => true

/-- The error-code field of the frame the stub builds, given the value
`hw` the hardware pushed for this trap (meaningful only for the vectors
where the CPU pushes one). -/
def stubErrorCode (s : Stub) (hw : Nat) : Nat :=
  if pushesPlaceholderCode s then 0 else hw

/-- Which C entry point the stub's `call` instruction targets. -/
inductive CalleeTag where
  | interruptHandler
  | syscallHandler
deriving DecidableEq, Repr

/-- `ERROR`, `ERROR_CODE` and `IRQ` stubs call `interrupt_handler`; the
`syscall` stub calls `syscall_handler` directly. -/
def stubCallee : Stub → CalleeTag
  | .syscall => .syscallHandler
  | _ => .interruptHandler

/-- The 32 exception stubs exactly as `context.s` instantiates the
macros: `ERROR_CODE` for 8, 10, 11, 12, 13, 14, 17, 30 and `ERROR` for
every other vector of 0–31. -/
def exceptionStubs : List Stub :=
  [.error 0, .error 1, .error 2, .error 3, .error 4, .error 5, .error 6,
   .error 7, .errorCode 8, .error 9, .errorCode 10, .errorCode 11,
   .errorCode 12, .errorCode 13, .errorCode 14, .error 15, .error 16,
   .errorCode 17, .error 18, .error 19, .error 20, .error 21, .error 22,
   .error 23, .error 24, .error 25, .error 26, .error 27, .error 28,
   .error 29, .errorCode 30, .error 31]

/-- The 16 IRQ stubs `IRQ 0` … `IRQ 15` as `context.s` instantiates
them. -/
def irqStubs : List Stub :=
  [.irq 0, .irq 1, .irq 2, .irq 3, .irq 4, .irq 5, .irq 6, .irq 7,
   .irq 8, .irq 9, .irq 10, .irq 11, .irq 12, .irq 13, .irq 14, .irq 15]

/-- The exception vectors for which the hardware pushes a genuine error
code (the `ERROR_CODE` instantiations of `context.s`). -/
def errorCodeVectors : List Nat := [8, 10, 11, 12, 13, 14, 17, 30]

/-! ## Syscall dispatcher (`src/syscall/handler.c`)

`regs_t` is the register frame the entry stub builds; `handler.c` reads
only its `eax` field (the syscall number) but copies the whole frame
into the process descriptor, so the frame is kept as a record of the
general-purpose registers and control state. -/

/-- The saved register frame (`regs_t`). -/
structure Regs where
  ebp : Nat
  esp : Nat
  eip : Nat
  eflags : Nat
  eax : Nat
  ebx : Nat
  ecx : Nat
  edx : Nat
  esi : Nat
  edi : Nat
deriving DecidableEq, Repr

/-- The part of the process descriptor (`process_t`) that
`syscall_handler` touches: the persisted frame `regs_state` and the
`syscalling` flag. -/
structure process_t where
  regs_state : Regs
  syscalling : Bool
deriving DecidableEq, Repr

/-- `sys_ret_t`: a syscall handler's (signed) return value. -/
abbrev sys_ret_t := Int

/-- `sys_handler_t`: a syscall handler takes the process descriptor and
the frame and produces a return value along with the possibly mutated
process descriptor. -/
abbrev sys_handler_t := process_t → Regs → sys_ret_t × process_t

/-- The `sys_handlers` table of `handler.c`: a dense array of the five
handlers `sys_write, sys_fork, sys_exit, sys_getpid, sys_waitpid`
(whose bodies live outside the sampled sources, so they stay abstract);
`none` would be a hole (a null handler). -/
def sys_handlers (w f e g wp : sys_handler_t) : List (Option sys_handler_t) :=
  [some w, some f, some e, some g, some wp]

/-- The lookup of `syscall_handler`:
`if(id >= SYSCALLS_COUNT || !(h = sys_handlers[id])) return -1;` —
`none` when `id` is out of range or hits a hole. -/
def sys_lookup (tbl : List (Option sys_handler_t)) (id : Nat) :
    Option sys_handler_t :=
  match tbl.get? id with
  | none => none
  | some none => none
  | some (some h) => some h

/-- The observable steps `syscall_handler` takes on its valid path, in
order, recorded so the dispatch sequence can be stated.  `callHandler`
records the syscall number, the process descriptor state passed to the
handler, and the interrupt-enable state at the moment of the call. -/
inductive Event where
  | getRunningProcess
  | storeRegsState
  | setSyscalling (b : Bool)
  | sti
  | callHandler (id : Nat) (p : process_t) (intrEnabled : Bool)
deriving DecidableEq, Repr

/-- The outcome of one `syscall_handler` run: the returned value, the
final state of the running process descriptor, the final
interrupt-enable state, and the trace of observable steps. -/
structure DispatchResult where
  ret : sys_ret_t
  running : Option process_t
  intr : Bool
  trace : List Event
deriving DecidableEq, Repr

/-- `sys_ret_t syscall_handler(const regs_t *registers)` of `handler.c`,
with the ambient state passed explicitly: the syscall table, the value
`get_running_process()` would return, and the interrupt-enable flag.
`none` models the undefined behavior of dereferencing a null
`get_running_process()` result (the source carries a
`// TODO Check if NULL?`). -/
def syscall_handler (tbl : List (Option sys_handler_t))
    (running : Option process_t) (intr : Bool) (registers : Regs) :
    Option DispatchResult :=
  let id := registers.eax
  match sys_lookup tbl id with
  | none => some { ret := -1, running := running, intr := intr, trace := [] }
  | some h =>
    match running with
    | none => none
    | some proc =>
      let p2 : process_t := { proc with regs_state := registers, syscalling := true }
      let intr2 := STI intr
      let rp := h p2 registers
      let p4 : process_t := { rp.2 with syscalling := false }
      some { ret := rp.1, running := some p4, intr := intr2,
             trace := [.getRunningProcess, .storeRegsState,
                       .setSyscalling true, .sti,
                       .callHandler id p2 intr2, .setSyscalling false] }

/-- A signed return value as the 32-bit pattern stored in `eax`. -/
def toBits32 (i : Int) : Nat := (i.emod (2 ^ 32)).toNat

/-- Modelled from the spec: the `STORE_REGS`/`LOAD_REGS` macros live in
`arch/x86/src/regs.s`, which is not among the sampled sources; §4.1 of
the spec says the exit stub writes the syscall handler's result into
the frame's designated return-value slot (`eax`) and restores every
other register unchanged. -/
def exit_stub_writeback (r : Regs) (ret : sys_ret_t) : Regs :=
  { r with eax := toBits32 ret }

/-- A whole syscall trap as the exit stub sees it: dispatch through
`syscall_handler`, then the result written into the frame's
return-value slot. -/
def syscall_trap (tbl : List (Option sys_handler_t))
    (running : Option process_t) (intr : Bool) (registers : Regs) :
    Option (DispatchResult × Regs) :=
  match syscall_handler tbl running intr registers with
  | none => none
  | some out => some (out, exit_stub_writeback registers out.ret)

/-! ## `print_nbr` (`src/test_process.c`)

`print_nbr` is C working on a 32-bit `int`; negation is modelled with
two's-complement wraparound (the one place where overflow matters, at
`-nbr` for `nbr = INT_MIN`), and `/`, `%` with C's truncation-toward-
zero semantics.  The bytes it writes are collected in a list; the
recursion is given explicit fuel so that termination is a provable
statement about the fuel needed (one unit per decimal digit). -/

/-- Reduce an integer to the 32-bit two's-complement value it denotes,
in `[-2^31, 2^31)`. -/
def wrap32 (x : Int) : Int := (x + 2 ^ 31) % 2 ^ 32 - 2 ^ 31

/-- 32-bit `int` negation `-x` with two's-complement wraparound. -/
def neg32 (x : Int) : Int := wrap32 (-x)

/-- C's `/` on `int` (truncation toward zero), for a positive
divisor. -/
def cdiv (a b : Int) : Int :=
  if 0 ≤ a then ((a.toNat / b.toNat : Nat) : Int)
  else -(((-a).toNat / b.toNat : Nat) : Int)

/-- C's `%` on `int` (sign of the dividend), for a positive divisor. -/
def cmod (a b : Int) : Int :=
  if 0 ≤ a then ((a.toNat % b.toNat : Nat) : Int)
  else -(((-a).toNat % b.toNat : Nat) : Int)

/-- `void print_nbr(int nbr)` of `test_process.c`, with explicit fuel
bounding the recursion depth; `none` means the fuel ran out, `some l`
the list of byte values written to fd 1 (45 is the character `-`, 48
the character `0`).  The source:
sign first, then `if (nbr >= 10) print_nbr(nbr / 10);`, then
`if (-nbr >= 10) print_nbr(-nbr / 10);`, then one digit byte. -/
def print_nbr_fuel : Nat → Int → Option (List Int)
  | 0, _ => none
  | f + 1, nbr =>
    (if 10 ≤ nbr then print_nbr_fuel f (cdiv nbr 10) else some []).bind
      fun o1 =>
        (if 10 ≤ neg32 nbr then print_nbr_fuel f (cdiv (neg32 nbr) 10)
          else some []).bind fun o2 =>
          some ((if nbr < 0 then [(45 : Int)] else []) ++ o1 ++ o2 ++
            [48 + (if 0 ≤ nbr then cmod nbr 10 else cmod (neg32 nbr) 10)])

/-- The number of decimal digits of a natural number (1 for 0). -/
def digits10 (m : Nat) : Nat := Nat.log 10 m + 1

/-! ## Sample values used by witness theorems -/

/-- A frame whose `eax` (syscall-number) field is `n` and whose other
registers are zero. -/
def regsEax (n : Nat) : Regs :=
  { ebp := 0, esp := 0, eip := 0, eflags := 0, eax := n, ebx := 0,
    ecx := 0, edx := 0, esi := 0, edi := 0 }

/-- A process descriptor that is not inside a syscall. -/
def procIdle : process_t := { regs_state := regsEax 0, syscalling := false }

/-- A syscall handler that returns 42 and leaves the process alone. -/
def hConst : sys_handler_t := fun p _ => (42, p)

/-! ## Claims about the trap entry stubs and the spinlock -/

/-- C3: for every exception vector in the hardware-error-code subset
{8, 10, 11, 12, 13, 14, 17, 30} the entry stub does not push a
synthesized placeholder, so the frame's error-code field is the
hardware-pushed value `hw`; every other exception stub, every IRQ stub
and the syscall stub push the placeholder 0 as the frame's error
code. -/
theorem error_code_vector_discipline (hw : Nat) :
    (∀ s ∈ exceptionStubs,
      stubErrorCode s hw = if stubVector s ∈ errorCodeVectors then hw else 0) ∧
    (∀ s ∈ exceptionStubs,
      (pushesPlaceholderCode s = false ↔ stubVector s ∈ errorCodeVectors)) ∧
    (∀ s ∈ irqStubs, stubErrorCode s hw = 0) ∧
    stubErrorCode Stub.syscall hw = 0 := by
  refine ⟨?_, by decide, ?_, rfl⟩ <;> intro s hs <;> fin_cases hs <;>
    simp [stubErrorCode, pushesPlaceholderCode, stubVector, errorCodeVectors]

/-- C4 counterexample: the vector number the `syscall` stub records in
the frame is 0, which lies inside the exception vector range 0–31 and
coincides with the vector recorded by the stub of exception 0 — not a
reserved number outside both ranges. -/
theorem syscall_vector_in_exception_range :
    stubVector Stub.syscall = 0 ∧ stubVector Stub.syscall < 32 ∧
    stubVector Stub.syscall = stubVector (Stub.error 0) := by decide

/-- C4 amended: the `syscall` stub pushes the placeholder 0 (commented
`interrupt ID (absent)`) as the frame's vector, inside the exception
range; syscall frames are distinguished not by the vector field but by
the dispatch path — the syscall stub calls `syscall_handler` directly,
while every exception and IRQ stub calls `interrupt_handler`. -/
theorem syscall_stub_vector_and_callee :
    stubVector Stub.syscall = 0 ∧
    stubCallee Stub.syscall = CalleeTag.syscallHandler ∧
    (∀ s ∈ exceptionStubs, stubCallee s = CalleeTag.interruptHandler) ∧
    (∀ s ∈ irqStubs, stubCallee s = CalleeTag.interruptHandler) := by decide

/-- C7: the IRQ stubs record vectors `32 + line` for lines 0–15, the
contiguous range 32–47; every exception stub records a vector below 32,
so the source class of a frame is decided by range comparison on the
vector alone. -/
theorem irq_vectors_contiguous_above_exceptions :
    irqStubs.map stubVector = List.range' 32 16 ∧
    exceptionStubs.map stubVector = List.range 32 ∧
    (∀ s ∈ exceptionStubs, stubVector s < 32) ∧
    (∀ s ∈ irqStubs, 32 ≤ stubVector s ∧ stubVector s < 48) := by decide

/-- C5 counterexample: with interrupts initially disabled, acquiring
then releasing the spinlock leaves interrupts enabled — not identical
to the state before acquisition. -/
theorem lock_unlock_from_disabled :
    lock false = false ∧ unlock (lock false) = true := by decide

/-- C5 amended: acquiring then releasing the spinlock always leaves
interrupts enabled (`unlock` executes an unconditional `STI`), so the
interrupt-enable state is restored only when interrupts were enabled
before the acquisition. -/
theorem lock_unlock_leaves_enabled (s : Bool) :
    unlock (lock s) = true ∧ (s = true → unlock (lock s) = s) := by
  cases s <;> simp [lock, unlock, CLI, STI]

/-! ## Claims about the syscall dispatcher -/

/-- C1: when the syscall number is out of range or maps to a hole,
`syscall_handler` returns −1 without any observable step: no handler is
invoked (empty trace), the running process — `regs_state` and
`syscalling` included — is untouched, the interrupt-enable state is
untouched, and the only register of the frame the trap changes is the
return-value slot `eax`, written by the exit stub. -/
theorem syscall_handler_invalid_id_is_noop
    (tbl : List (Option sys_handler_t)) (running : Option process_t)
    (intr : Bool) (registers : Regs)
    (hbad : sys_lookup tbl registers.eax = none) :
    syscall_trap tbl running intr registers =
      some ({ ret := -1, running := running, intr := intr, trace := [] },
            { registers with eax := toBits32 (-1) }) := by
  simp [syscall_trap, syscall_handler, hbad, exit_stub_writeback]

/-- C1 witness: syscall number 9 against the empty table. -/
theorem syscall_handler_invalid_id_is_noop_witness :
    syscall_trap [] (some procIdle) true (regsEax 9) =
      some ({ ret := -1, running := some procIdle, intr := true, trace := [] },
            { regsEax 9 with eax := toBits32 (-1) }) :=
  syscall_handler_invalid_id_is_noop [] (some procIdle) true (regsEax 9) rfl

/-- C2: on a valid lookup, `syscall_handler` resolves the running
process, copies the trapped frame into its `regs_state`, sets
`syscalling`, enables interrupts, calls the handler with the process
descriptor and the frame, clears `syscalling`, and returns the
handler's result — exactly that sequence, recorded by the trace. -/
theorem syscall_handler_valid_dispatch_sequence
    (tbl : List (Option sys_handler_t)) (p : process_t) (intr : Bool)
    (registers : Regs) (h : sys_handler_t)
    (hfound : sys_lookup tbl registers.eax = some h) :
    syscall_handler tbl (some p) intr registers =
      some { ret := (h { p with regs_state := registers, syscalling := true }
                      registers).1,
             running := some
               { (h { p with regs_state := registers, syscalling := true }
                   registers).2 with syscalling := false },
             intr := true,
             trace := [.getRunningProcess, .storeRegsState,
                       .setSyscalling true, .sti,
                       .callHandler registers.eax
                         { p with regs_state := registers, syscalling := true }
                         true,
                       .setSyscalling false] } := by
  simp [syscall_handler, hfound, STI]

/-- A descriptor as the dispatcher hands it to the handler in the C2
witness run: `procIdle` with the frame published and `syscalling`
set. -/
def procInCall : process_t :=
  { procIdle with regs_state := regsEax 0, syscalling := true }

/-- C2 witness: a one-entry table dispatching syscall number 0. -/
theorem syscall_handler_valid_dispatch_sequence_witness :
    syscall_handler [some hConst] (some procIdle) false (regsEax 0) =
      some { ret := (hConst procInCall (regsEax 0)).1,
             running := some
               { (hConst procInCall (regsEax 0)).2 with syscalling := false },
             intr := true,
             trace := [.getRunningProcess, .storeRegsState,
                       .setSyscalling true, .sti,
                       .callHandler (regsEax 0).eax procInCall true,
                       .setSyscalling false] } :=
  syscall_handler_valid_dispatch_sequence [some hConst] procIdle false
    (regsEax 0) hConst rfl

/-- C8: once the lookup finds a handler, `syscall_handler` dereferences
`get_running_process()` with no null check: the dispatch has a defined
outcome exactly when a running process descriptor exists. -/
theorem valid_syscall_defined_iff_running
    (tbl : List (Option sys_handler_t)) (running : Option process_t)
    (intr : Bool) (registers : Regs) (h : sys_handler_t)
    (hfound : sys_lookup tbl registers.eax = some h) :
    (syscall_handler tbl running intr registers).isSome = running.isSome := by
  cases running <;> simp [syscall_handler, hfound]

/-- C8 witness: with no running process, dispatching a valid syscall
number has no defined outcome. -/
theorem valid_syscall_defined_iff_running_witness :
    (syscall_handler [some hConst] none false (regsEax 0)).isSome =
      (none : Option process_t).isSome :=
  valid_syscall_defined_iff_running [some hConst] none false (regsEax 0)
    hConst rfl

/-- C6: when a process not already in a syscall enters the dispatcher,
every path returns it with `syscalling` false again; a handler is only
ever called on a descriptor whose `syscalling` is true, with interrupts
enabled at that moment; and on the invalid-number path nothing at all
happens (no step sets the flag). -/
theorem syscalling_window
    (tbl : List (Option sys_handler_t)) (p : process_t) (intr : Bool)
    (registers : Regs) (out : DispatchResult)
    (hentry : p.syscalling = false)
    (hrun : syscall_handler tbl (some p) intr registers = some out) :
    (∀ q, out.running = some q → q.syscalling = false) ∧
    (∀ id q b, Event.callHandler id q b ∈ out.trace →
      q.syscalling = true ∧ b = true) ∧
    (sys_lookup tbl registers.eax = none → out.trace = []) := by
  cases hcase : sys_lookup tbl registers.eax with
  | none =>
    simp only [syscall_handler, hcase, Option.some.injEq] at hrun
    subst hrun
    refine ⟨?_, ?_, fun _ => rfl⟩
    · intro q hq
      simp only [Option.some.injEq] at hq
      subst hq
      exact hentry
    · intro id q b hmem
      simp at hmem
  | some h =>
    simp only [syscall_handler, hcase, Option.some.injEq] at hrun
    subst hrun
    refine ⟨?_, ?_, fun hc => Option.noConfusion hc⟩
    · intro q hq
      simp only [Option.some.injEq] at hq
      subst hq
      rfl
    · intro id q b hmem
      simp only [List.mem_cons] at hmem
      rcases hmem with h1 | h1 | h1 | h1 | h1 | h1 | h1 <;> cases h1
      exact ⟨rfl, rfl⟩

/-- C6 witness: the invalid-number path of the empty table, entered
with `syscalling` false. -/
theorem syscalling_window_witness :
    (∀ q, (DispatchResult.running
        { ret := -1, running := some procIdle, intr := true, trace := [] }) =
          some q → q.syscalling = false) ∧
    (∀ id q b, Event.callHandler id q b ∈ (DispatchResult.trace
        { ret := -1, running := some procIdle, intr := true, trace := [] }) →
      q.syscalling = true ∧ b = true) ∧
    (sys_lookup [] (regsEax 9).eax = none → (DispatchResult.trace
        { ret := -1, running := some procIdle, intr := true, trace := [] }) = []) :=
  syscalling_window [] procIdle true (regsEax 9)
    { ret := -1, running := some procIdle, intr := true, trace := [] } rfl rfl

/-- The dispatcher leaves the world exactly as it was and returns −1
precisely when the lookup fails — a handler returning −1 is
distinguishable because its run leaves a nonempty trace. -/
theorem syscall_handler_error_record_iff
    (tbl : List (Option sys_handler_t)) (running : Option process_t)
    (intr : Bool) (registers : Regs) :
    (syscall_handler tbl running intr registers =
        some { ret := -1, running := running, intr := intr, trace := [] }) ↔
      sys_lookup tbl registers.eax = none := by
  constructor
  · intro hL
    cases hcase : sys_lookup tbl registers.eax with
    | none => rfl
    | some h =>
      exfalso
      simp only [syscall_handler, hcase] at hL
      cases running with
      | none => exact Option.noConfusion hL
      | some p =>
        simp only [Option.some.injEq] at hL
        have htr := congrArg DispatchResult.trace hL
        simp at htr
  · intro hn
    simp [syscall_handler, hn]

/-- C9: the syscall table is dense with exactly five non-null entries
(`sys_write, sys_fork, sys_exit, sys_getpid, sys_waitpid` at numbers
0–4): the lookup fails exactly for numbers ≥ 5, the hole branch of the
lookup is unreachable, and `syscall_handler` takes the invalid-syscall
error exit exactly for numbers ≥ 5. -/
theorem sys_handlers_dense_five (w f e g wp : sys_handler_t) :
    (sys_handlers w f e g wp).length = 5 ∧
    (∀ id : Nat, sys_lookup (sys_handlers w f e g wp) id = none ↔ 5 ≤ id) ∧
    (∀ id : Nat, ¬((sys_handlers w f e g wp).get? id = some none)) ∧
    (∀ (running : Option process_t) (intr : Bool) (registers : Regs),
      (syscall_handler (sys_handlers w f e g wp) running intr registers =
          some { ret := -1, running := running, intr := intr, trace := [] }) ↔
        5 ≤ registers.eax) := by
  have hlook : ∀ id : Nat,
      sys_lookup (sys_handlers w f e g wp) id = none ↔ 5 ≤ id := by
    intro id
    rcases id with _ | _ | _ | _ | _ | n <;>
      simp [sys_lookup, sys_handlers, List.get?]
  refine ⟨rfl, hlook, ?_, ?_⟩
  · intro id
    rcases id with _ | _ | _ | _ | _ | n <;>
      simp [sys_handlers, List.get?]
  · intro running intr registers
    exact (syscall_handler_error_record_iff _ running intr registers).trans
      (hlook registers.eax)

/-! ## Claim about `print_nbr` -/

/-- `wrap32` is the identity on values already in 32-bit range. -/
theorem wrap32_eq_self {x : Int} (h1 : -(2 ^ 31) ≤ x) (h2 : x < 2 ^ 31) :
    wrap32 x = x := by
  unfold wrap32
  omega

/-- For an `int` other than `INT_MIN`, `-nbr` does not overflow. -/
theorem neg32_eq_neg {x : Int} (hlo : -(2 ^ 31) < x) (hhi : x < 2 ^ 31) :
    neg32 x = -x :=
  wrap32_eq_self (by omega) (by omega)

/-- `-INT_MIN` wraps around to `INT_MIN` itself. -/
theorem neg32_intMin : neg32 (-(2 ^ 31)) = -(2 ^ 31) := by
  unfold neg32 wrap32
  omega

/-- `cdiv` on a nonnegative dividend is natural division of the
magnitude. -/
theorem cdiv_nonneg_eq (m : Int) (h : 0 ≤ m) :
    cdiv m 10 = ((m.natAbs / 10 : Nat) : Int) := by
  unfold cdiv
  rw [if_pos h, show (10 : Int).toNat = 10 from rfl]
  congr 1
  omega

/-- Dropping the last decimal digit loses exactly one digit of a
number with at least two. -/
theorem digits10_div_ten {m : Nat} (h : 10 ≤ m) :
    digits10 (m / 10) + 1 = digits10 m := by
  unfold digits10
  rw [Nat.log_div_base]
  have := Nat.log_pos (b := 10) (by norm_num) h
  omega

/-- C10: `print_nbr` terminates on every `int` input — fuel equal to
the number of decimal digits of the input's magnitude suffices, because
each recursive call (`nbr / 10` or `-nbr / 10`) strictly shrinks the
magnitude by one decimal digit; in particular `INT_MIN`, whose negation
wraps to itself, makes no recursive call at all. -/
theorem print_nbr_fuel_digits_sufficient (f : Nat) (n : Int)
    (h1 : -(2 ^ 31) ≤ n) (h2 : n < 2 ^ 31) (hf : digits10 n.natAbs ≤ f) :
    (print_nbr_fuel f n).isSome = true := by
  induction f generalizing n with
  | zero => simp [digits10] at hf
  | succ f ih =>
    simp only [print_nbr_fuel]
    by_cases hpos : 10 ≤ n
    · have hd : cdiv n 10 = ((n.natAbs / 10 : Nat) : Int) :=
        cdiv_nonneg_eq n (by omega)
      have hdig : digits10 (n.natAbs / 10) + 1 = digits10 n.natAbs :=
        digits10_div_ten (by omega)
      have hrec := ih (cdiv n 10) (by rw [hd]; omega) (by rw [hd]; omega)
        (by rw [hd]; simp only [Int.natAbs_ofNat]; omega)
      have hneg : ¬(10 ≤ neg32 n) := by
        rw [neg32_eq_neg (by omega) h2]
        omega
      rw [if_pos hpos, if_neg hneg]
      obtain ⟨o1, ho1⟩ := Option.isSome_iff_exists.mp hrec
      rw [ho1]
      simp
    · by_cases hnegc : 10 ≤ neg32 n
      · have hne : -(2 ^ 31) < n := by
          rcases lt_or_eq_of_le h1 with hlt | heq
          · exact hlt
          · rw [← heq, neg32_intMin] at hnegc
            omega
        have hneq : neg32 n = -n := neg32_eq_neg hne h2
        have h10 : 10 ≤ -n := hneq ▸ hnegc
        have hd : cdiv (neg32 n) 10 = ((n.natAbs / 10 : Nat) : Int) := by
          rw [hneq, cdiv_nonneg_eq (-n) (by omega)]
          congr 1
          omega
        have hdig : digits10 (n.natAbs / 10) + 1 = digits10 n.natAbs :=
          digits10_div_ten (by omega)
        have hrec := ih (cdiv (neg32 n) 10) (by rw [hd]; omega)
          (by rw [hd]; omega)
          (by rw [hd]; simp only [Int.natAbs_ofNat]; omega)
        rw [if_neg hpos, if_pos hnegc]
        obtain ⟨o2, ho2⟩ := Option.isSome_iff_exists.mp hrec
        rw [ho2]
        simp
      · rw [if_neg hpos, if_neg hnegc]
        simp

/-- C10 witness: `INT_MIN` itself, with fuel equal to its ten decimal
digits. -/
theorem print_nbr_fuel_digits_sufficient_witness :
    (print_nbr_fuel (digits10 (Int.natAbs (-2147483648))) (-2147483648)).isSome
      = true :=
  print_nbr_fuel_digits_sufficient (digits10 (Int.natAbs (-2147483648)))
    (-2147483648) (by decide) (by decide) (le_refl _)
